import Mathlib

/-
  Verification of the Genesis DB Rust client (genesisdb-io-client-rust).

  Shallow embedding conventions:
  - Rust `String` / `&str` values are embedded as `List Char`; raw byte
    buffers (`Bytes` chunks of the response body) as `List Nat` with each
    entry < 256 in intended use.
  - Fallible Rust functions returning `Result<T, Error>` are embedded as
    `Except Error T`. Error payloads that the client never inspects
    (`serde_json::Error`, `reqwest::Error` values) are not modelled beyond
    the constructor choice.
  - JSON numbers are kept as their validated source lexemes; the client
    never performs numeric computation on them, so float conversion is
    irrelevant to every claim. serde_json's recursion-depth limit (128)
    and numeric range errors are not modelled.
  - Request construction (URLs, headers, bodies) does not influence any
    response-processing claim, so endpoint functions take the server's
    `HttpResponse` directly.
-/

/-! ### Characters and whitespace (Rust `str::trim`, `char::is_whitespace`) -/

/-- Unicode White_Space property, as used by Rust `char::is_whitespace`. -/
def isRustWs (c : Char) : Bool :=
  let n := c.toNat
  (0x09 ≤ n && n ≤ 0x0D) || n == 0x20 || n == 0x85 || n == 0xA0 || n == 0x1680 ||
  (0x2000 ≤ n && n ≤ 0x200A) || n == 0x2028 || n == 0x2029 || n == 0x202F ||
  n == 0x205F || n == 0x3000

/-- Rust `str::trim`: remove leading and trailing whitespace. -/
def trimChars (s : List Char) : List Char :=
  ((s.dropWhile isRustWs).reverse.dropWhile isRustWs).reverse

/-! ### UTF-8 lossy decoding (Rust `String::from_utf8_lossy`)

The source pushes `String::from_utf8_lossy(&chunk)` onto the buffer for
each chunk separately.  The decoder below follows the standard library's
"substitution of maximal subparts" policy: each maximal valid prefix of a
multi-byte sequence that cannot be completed is replaced by one
U+FFFD, and a lone invalid byte is replaced by one U+FFFD. -/

/-- The replacement character U+FFFD. -/
def replacementChar : Char := Char.ofNat 0xFFFD

/-- A UTF-8 continuation byte: `0x80 ..= 0xBF`. -/
def utf8IsCont (b : Nat) : Bool := 0x80 ≤ b && b ≤ 0xBF

/-- Allowed first continuation byte of a three-byte sequence headed by `b0`
(the ranges exclude overlong encodings and surrogates). -/
def utf8Cont3First (b0 b1 : Nat) : Bool :=
  if b0 == 0xE0 then 0xA0 ≤ b1 && b1 ≤ 0xBF
  else if b0 == 0xED then 0x80 ≤ b1 && b1 ≤ 0x9F
  else utf8IsCont b1

/-- Allowed first continuation byte of a four-byte sequence headed by `b0`
(the ranges exclude overlong encodings and values above U+10FFFF). -/
def utf8Cont4First (b0 b1 : Nat) : Bool :=
  if b0 == 0xF0 then 0x90 ≤ b1 && b1 ≤ 0xBF
  else if b0 == 0xF4 then 0x80 ≤ b1 && b1 ≤ 0x8F
  else utf8IsCont b1

/-- Scalar value of a two-byte UTF-8 sequence. -/
def utf8Char2 (b0 b1 : Nat) : Char := Char.ofNat ((b0 - 0xC0) * 64 + (b1 - 0x80))

/-- Scalar value of a three-byte UTF-8 sequence. -/
def utf8Char3 (b0 b1 b2 : Nat) : Char :=
  Char.ofNat ((b0 - 0xE0) * 4096 + (b1 - 0x80) * 64 + (b2 - 0x80))

/-- Scalar value of a four-byte UTF-8 sequence. -/
def utf8Char4 (b0 b1 b2 b3 : Nat) : Char :=
  Char.ofNat ((b0 - 0xF0) * 262144 + (b1 - 0x80) * 4096 + (b2 - 0x80) * 64 + (b3 - 0x80))

/-- Rust `String::from_utf8_lossy`, on one byte buffer. -/
def utf8LossyDecode : List Nat → List Char
  | [] => []
  | b0 :: rest =>
    if b0 < 0x80 then Char.ofNat b0 :: utf8LossyDecode rest
    else if 0xC2 ≤ b0 ∧ b0 ≤ 0xDF then
      match rest with
      | [] => [replacementChar]
      | b1 :: rest1 =>
        if utf8IsCont b1 then utf8Char2 b0 b1 :: utf8LossyDecode rest1
        else replacementChar :: utf8LossyDecode (b1 :: rest1)
    else if 0xE0 ≤ b0 ∧ b0 ≤ 0xEF then
      match rest with
      | [] => [replacementChar]
      | b1 :: rest1 =>
        if utf8Cont3First b0 b1 then
          match rest1 with
          | [] => [replacementChar]
          | b2 :: rest2 =>
            if utf8IsCont b2 then utf8Char3 b0 b1 b2 :: utf8LossyDecode rest2
            else replacementChar :: utf8LossyDecode (b2 :: rest2)
        else replacementChar :: utf8LossyDecode (b1 :: rest1)
    else if 0xF0 ≤ b0 ∧ b0 ≤ 0xF4 then
      match rest with
      | [] => [replacementChar]
      | b1 :: rest1 =>
        if utf8Cont4First b0 b1 then
          match rest1 with
          | [] => [replacementChar]
          | b2 :: rest2 =>
            if utf8IsCont b2 then
              match rest2 with
              | [] => [replacementChar]
              | b3 :: rest3 =>
                if utf8IsCont b3 then utf8Char4 b0 b1 b2 b3 :: utf8LossyDecode rest3
                else replacementChar :: utf8LossyDecode (b3 :: rest3)
            else replacementChar :: utf8LossyDecode (b2 :: rest2)
        else replacementChar :: utf8LossyDecode (b1 :: rest1)
    else replacementChar :: utf8LossyDecode rest

/-- Well-formed UTF-8 byte sequences: a concatenation of complete encodings. -/
inductive Utf8Valid : List Nat → Prop
  | nil : Utf8Valid []
  | one (b0 : Nat) (rest : List Nat) :
      b0 < 0x80 → Utf8Valid rest → Utf8Valid (b0 :: rest)
  | two (b0 b1 : Nat) (rest : List Nat) :
      0xC2 ≤ b0 → b0 ≤ 0xDF → utf8IsCont b1 = true →
      Utf8Valid rest → Utf8Valid (b0 :: b1 :: rest)
  | three (b0 b1 b2 : Nat) (rest : List Nat) :
      0xE0 ≤ b0 → b0 ≤ 0xEF → utf8Cont3First b0 b1 = true → utf8IsCont b2 = true →
      Utf8Valid rest → Utf8Valid (b0 :: b1 :: b2 :: rest)
  | four (b0 b1 b2 b3 : Nat) (rest : List Nat) :
      0xF0 ≤ b0 → b0 ≤ 0xF4 → utf8Cont4First b0 b1 = true →
      utf8IsCont b2 = true → utf8IsCont b3 = true →
      Utf8Valid rest → Utf8Valid (b0 :: b1 :: b2 :: b3 :: rest)

/-! ### JSON values (`serde_json::Value`)

Objects are embedded as entry lists in source order, keeping duplicate
keys; `serde_json`'s `Map` (a BTreeMap, last insert wins) is recovered by
the accessors below, while the `CloudEvent` deserializer needs the raw
entry sequence to reproduce serde's duplicate-field errors. -/

inductive Json where
  | null : Json
  | bool (b : Bool) : Json
  | num (lexeme : List Char) : Json
  | str (s : List Char) : Json
  | arr (elements : List Json) : Json
  | obj (entries : List (List Char × Json)) : Json

/-- The opening quote character. -/
def dquote : Char := Char.ofNat 0x22

/-- The backslash character. -/
def bslash : Char := Char.ofNat 0x5C

/-- The opening curly bracket. -/
def lbrace : Char := Char.ofNat 0x7B

/-- The closing curly bracket. -/
def rbrace : Char := Char.ofNat 0x7D

/-- Value of the key in a `serde_json::Map` built from the raw entries:
insertion overwrites, so the last binding wins. -/
def lastAssoc (entries : List (List Char × Json)) (k : List Char) : Option Json :=
  entries.foldl (fun acc e => if e.1 = k then some e.2 else acc) none

/-- Rust `Value::get(key)`: `None` unless the value is an object. -/
def jsonGet (v : Json) (k : List Char) : Option Json :=
  match v with
  | Json.obj entries => lastAssoc entries k
  | _ => none

/-- Rust `value.as_object().map(Map::len)`: the number of distinct keys. -/
def jsonObjLen (v : Json) : Option Nat :=
  match v with
  | Json.obj entries => some (entries.map Prod.fst).dedup.length
  | _ => none

/-! ### JSON text parsing (`serde_json::from_str::<Value>`)

All parsing functions are structurally recursive on a fuel argument;
`input length + 1` units are always enough because every unit spent
accompanies at least one consumed character. -/

/-- JSON insignificant whitespace (serde_json accepts exactly these four). -/
def isJsonWs (c : Char) : Bool :=
  c == ' ' || c == Char.ofNat 0x09 || c == '\n' || c == '\r'

/-- Skip insignificant whitespace. -/
def skipJsonWs (s : List Char) : List Char := s.dropWhile isJsonWs

/-- An ASCII digit. -/
def isJsonDigit (c : Char) : Bool := '0' ≤ c && c ≤ '9'

/-- Value of one hexadecimal digit. -/
def hexDigitVal (c : Char) : Option Nat :=
  if '0' ≤ c && c ≤ '9' then some (c.toNat - 0x30)
  else if 'a' ≤ c && c ≤ 'f' then some (c.toNat - 0x61 + 10)
  else if 'A' ≤ c && c ≤ 'F' then some (c.toNat - 0x41 + 10)
  else none

/-- Value of a four-digit hexadecimal escape. -/
def hex4 (a b c d : Char) : Option Nat := do
  let va ← hexDigitVal a
  let vb ← hexDigitVal b
  let vc ← hexDigitVal c
  let vd ← hexDigitVal d
  pure (((va * 16 + vb) * 16 + vc) * 16 + vd)

/-- Longest digit run at the head of the input, and the rest. -/
def takeDigits : List Char → List Char × List Char
  | [] => ([], [])
  | c :: rest =>
    if isJsonDigit c then
      let p := takeDigits rest
      (c :: p.1, p.2)
    else ([], c :: rest)

/-- Integer part of a JSON number: `0`, or a nonzero digit then digits
(serde_json rejects leading zeros). -/
def parseIntPart : List Char → Except Unit (List Char × List Char)
  | [] => .error ()
  | c :: rest =>
    if c = '0' then
      match rest with
      | d :: _ => if isJsonDigit d then .error () else .ok (['0'], rest)
      | [] => .ok (['0'], [])
    else if isJsonDigit c then
      let p := takeDigits rest
      .ok (c :: p.1, p.2)
    else .error ()

/-- Optional fraction part: a dot must be followed by at least one digit. -/
def parseFracPart (s : List Char) : Except Unit (List Char × List Char) :=
  match s with
  | '.' :: rest =>
    let p := takeDigits rest
    if p.1 = [] then .error () else .ok ('.' :: p.1, p.2)
  | _ => .ok ([], s)

/-- Optional exponent part: `e`/`E`, an optional sign, then at least one digit. -/
def parseExpPart (s : List Char) : Except Unit (List Char × List Char) :=
  match s with
  | c :: rest =>
    if c = 'e' ∨ c = 'E' then
      match rest with
      | s1 :: rest1 =>
        if s1 = '+' ∨ s1 = '-' then
          let p := takeDigits rest1
          if p.1 = [] then .error () else .ok (c :: s1 :: p.1, p.2)
        else
          let p := takeDigits rest
          if p.1 = [] then .error () else .ok (c :: p.1, p.2)
      | [] => .error ()
    else .ok ([], c :: rest)
  | [] => .ok ([], [])

/-- A complete JSON number lexeme (kept verbatim; see the header note). -/
def numLexeme (s : List Char) : Except Unit (List Char × List Char) :=
  match s with
  | c :: rest =>
    if c = '-' then do
      let p1 ← parseIntPart rest
      let p2 ← parseFracPart p1.2
      let p3 ← parseExpPart p2.2
      pure ('-' :: (p1.1 ++ p2.1 ++ p3.1), p3.2)
    else do
      let p1 ← parseIntPart (c :: rest)
      let p2 ← parseFracPart p1.2
      let p3 ← parseExpPart p2.2
      pure (p1.1 ++ p2.1 ++ p3.1, p3.2)
  | [] => .error ()

/-- Body of a JSON string after the opening quote: literal characters
(unescaped control characters are rejected), the eight simple escapes, and
`u` escapes with mandatory surrogate pairing, exactly as serde_json's
strict default. -/
def parseStringBody : Nat → List Char → Except Unit (List Char × List Char)
  | 0, _ => .error ()
  | _ + 1, [] => .error ()
  | fuel + 1, c :: rest =>
    if c = dquote then .ok ([], rest)
    else if c = bslash then
      match rest with
      | [] => .error ()
      | e :: rest1 =>
        if e = dquote ∨ e = bslash ∨ e = '/' then
          (parseStringBody fuel rest1).map (fun p => (e :: p.1, p.2))
        else if e = 'b' then
          (parseStringBody fuel rest1).map (fun p => (Char.ofNat 0x08 :: p.1, p.2))
        else if e = 'f' then
          (parseStringBody fuel rest1).map (fun p => (Char.ofNat 0x0C :: p.1, p.2))
        else if e = 'n' then
          (parseStringBody fuel rest1).map (fun p => ('\n' :: p.1, p.2))
        else if e = 'r' then
          (parseStringBody fuel rest1).map (fun p => ('\r' :: p.1, p.2))
        else if e = 't' then
          (parseStringBody fuel rest1).map (fun p => (Char.ofNat 0x09 :: p.1, p.2))
        else if e = 'u' then
          match rest1 with
          | a :: b :: cc :: d :: rest5 =>
            match hex4 a b cc d with
            | none => .error ()
            | some n =>
              if n < 0xD800 ∨ 0xE000 ≤ n then
                (parseStringBody fuel rest5).map (fun p => (Char.ofNat n :: p.1, p.2))
              else if n ≤ 0xDBFF then
                match rest5 with
                | e1 :: u1 :: a2 :: b2 :: c2 :: d2 :: rest11 =>
                  if e1 = bslash ∧ u1 = 'u' then
                    match hex4 a2 b2 c2 d2 with
                    | some m =>
                      if 0xDC00 ≤ m ∧ m ≤ 0xDFFF then
                        (parseStringBody fuel rest11).map (fun p =>
                          (Char.ofNat (0x10000 + (n - 0xD800) * 0x400 + (m - 0xDC00)) :: p.1, p.2))
                      else .error ()
                    | none => .error ()
                  else .error ()
                | _ => .error ()
              else .error ()
          | _ => .error ()
        else .error ()
    else if c.toNat < 0x20 then .error ()
    else (parseStringBody fuel rest).map (fun p => (c :: p.1, p.2))

mutual

/-- One JSON value at the head of the input (no leading whitespace). -/
def parseValue : Nat → List Char → Except Unit (Json × List Char)
  | 0, _ => .error ()
  | _ + 1, [] => .error ()
  | fuel + 1, c :: rest =>
    if c = dquote then
      (parseStringBody fuel rest).map (fun p => (Json.str p.1, p.2))
    else if c = '[' then
      match skipJsonWs rest with
      | d :: r2 =>
        if d = ']' then .ok (Json.arr [], r2)
        else do
          let p ← parseElems fuel (d :: r2)
          pure (Json.arr p.1, p.2)
      | [] => .error ()
    else if c = lbrace then
      match skipJsonWs rest with
      | d :: r2 =>
        if d = rbrace then .ok (Json.obj [], r2)
        else do
          let p ← parseEntries fuel (d :: r2)
          pure (Json.obj p.1, p.2)
      | [] => .error ()
    else if c = 't' then
      match rest with
      | 'r' :: 'u' :: 'e' :: r => .ok (Json.bool true, r)
      | _ => .error ()
    else if c = 'f' then
      match rest with
      | 'a' :: 'l' :: 's' :: 'e' :: r => .ok (Json.bool false, r)
      | _ => .error ()
    else if c = 'n' then
      match rest with
      | 'u' :: 'l' :: 'l' :: r => .ok (Json.null, r)
      | _ => .error ()
    else if c = '-' ∨ isJsonDigit c then
      (numLexeme (c :: rest)).map (fun p => (Json.num p.1, p.2))
    else .error ()

/-- Comma-separated array elements up to the closing bracket. -/
def parseElems : Nat → List Char → Except Unit (List Json × List Char)
  | 0, _ => .error ()
  | fuel + 1, s => do
    let p ← parseValue fuel (skipJsonWs s)
    match skipJsonWs p.2 with
    | c :: r3 =>
      if c = ',' then do
        let q ← parseElems fuel r3
        pure (p.1 :: q.1, q.2)
      else if c = ']' then .ok ([p.1], r3)
      else .error ()
    | [] => .error ()

/-- Comma-separated object entries up to the closing brace. -/
def parseEntries : Nat → List Char → Except Unit (List (List Char × Json) × List Char)
  | 0, _ => .error ()
  | fuel + 1, s =>
    match skipJsonWs s with
    | c :: r1 =>
      if c = dquote then do
        let kp ← parseStringBody fuel r1
        match skipJsonWs kp.2 with
        | d :: r3 =>
          if d = ':' then do
            let vp ← parseValue fuel (skipJsonWs r3)
            match skipJsonWs vp.2 with
            | e :: r5 =>
              if e = ',' then do
                let q ← parseEntries fuel r5
                pure ((kp.1, vp.1) :: q.1, q.2)
              else if e = rbrace then .ok ([(kp.1, vp.1)], r5)
              else .error ()
            | [] => .error ()
          else .error ()
        | [] => .error ()
      else .error ()
    | [] => .error ()

end

/-- `serde_json::from_str::<Value>`: leading and trailing whitespace is
allowed, anything else after the value is an error. -/
def parseJsonText (s : List Char) : Except Unit Json :=
  match parseValue (s.length + 1) (skipJsonWs s) with
  | .error _ => .error ()
  | .ok p => if skipJsonWs p.2 = [] then .ok p.1 else .error ()

/-! ### `CloudEvent` and its serde deserialization (src/types.rs)

The derived `Deserialize` accepts either a JSON object (fields by name,
unknown fields ignored, duplicate known fields rejected, `specversion`
defaulting to `"1.0"`) or a JSON array (fields in declaration order,
missing trailing optional fields defaulting, extra elements rejected). -/

structure CloudEvent where
  id : List Char
  source : List Char
  event_type : List Char
  subject : List Char
  time : Option (List Char)
  data : Option Json
  specversion : List Char
  datacontenttype : Option (List Char)

/-- Deserialize a `String` field: only a JSON string is accepted. -/
def asStr : Json → Except Unit (List Char)
  | Json.str s => .ok s
  | _ => .error ()

/-- Deserialize an `Option<String>` field: `null` becomes `None`. -/
def asOptStr : Json → Except Unit (Option (List Char))
  | Json.null => .ok none
  | Json.str s => .ok (some s)
  | _ => .error ()

/-- Deserialize an `Option<Value>` field: `null` becomes `None`. -/
def asOptVal (v : Json) : Except Unit (Option Json) :=
  match v with
  | Json.null => .ok none
  | w => .ok (some w)

/-- Partially filled `CloudEvent` during map deserialization: one slot per
struct field, `none` while the field has not been seen. -/
structure EvAcc where
  idF : Option (List Char)
  sourceF : Option (List Char)
  typeF : Option (List Char)
  subjectF : Option (List Char)
  timeF : Option (Option (List Char))
  dataF : Option (Option Json)
  specversionF : Option (List Char)
  datacontenttypeF : Option (Option (List Char))

/-- All-empty accumulator. -/
def evAccInit : EvAcc := ⟨none, none, none, none, none, none, none, none⟩

/-- Process one object entry: a known key must not repeat and its value
must have the field type; unknown keys are skipped. -/
def evAccStep (acc : EvAcc) (entry : List Char × Json) : Except Unit EvAcc :=
  if entry.1 = "id".toList then
    match acc.idF with
    | some _ => .error ()
    | none => (asStr entry.2).map (fun s => EvAcc.mk (some s) acc.sourceF acc.typeF
        acc.subjectF acc.timeF acc.dataF acc.specversionF acc.datacontenttypeF)
  else if entry.1 = "source".toList then
    match acc.sourceF with
    | some _ => .error ()
    | none => (asStr entry.2).map (fun s => EvAcc.mk acc.idF (some s) acc.typeF
        acc.subjectF acc.timeF acc.dataF acc.specversionF acc.datacontenttypeF)
  else if entry.1 = "type".toList then
    match acc.typeF with
    | some _ => .error ()
    | none => (asStr entry.2).map (fun s => EvAcc.mk acc.idF acc.sourceF (some s)
        acc.subjectF acc.timeF acc.dataF acc.specversionF acc.datacontenttypeF)
  else if entry.1 = "subject".toList then
    match acc.subjectF with
    | some _ => .error ()
    | none => (asStr entry.2).map (fun s => EvAcc.mk acc.idF acc.sourceF acc.typeF
        (some s) acc.timeF acc.dataF acc.specversionF acc.datacontenttypeF)
  else if entry.1 = "time".toList then
    match acc.timeF with
    | some _ => .error ()
    | none => (asOptStr entry.2).map (fun s => EvAcc.mk acc.idF acc.sourceF acc.typeF
        acc.subjectF (some s) acc.dataF acc.specversionF acc.datacontenttypeF)
  else if entry.1 = "data".toList then
    match acc.dataF with
    | some _ => .error ()
    | none => (asOptVal entry.2).map (fun s => EvAcc.mk acc.idF acc.sourceF acc.typeF
        acc.subjectF acc.timeF (some s) acc.specversionF acc.datacontenttypeF)
  else if entry.1 = "specversion".toList then
    match acc.specversionF with
    | some _ => .error ()
    | none => (asStr entry.2).map (fun s => EvAcc.mk acc.idF acc.sourceF acc.typeF
        acc.subjectF acc.timeF acc.dataF (some s) acc.datacontenttypeF)
  else if entry.1 = "datacontenttype".toList then
    match acc.datacontenttypeF with
    | some _ => .error ()
    | none => (asOptStr entry.2).map (fun s => EvAcc.mk acc.idF acc.sourceF acc.typeF
        acc.subjectF acc.timeF acc.dataF acc.specversionF (some s))
  else .ok acc

/-- Fold `evAccStep` over the raw object entries in source order. -/
def evAccFold : EvAcc → List (List Char × Json) → Except Unit EvAcc
  | acc, [] => .ok acc
  | acc, e :: es => do
    let acc2 ← evAccStep acc e
    evAccFold acc2 es

/-- Close the accumulator: the four plain `String` fields are required,
`specversion` defaults to `"1.0"`, the `Option` fields default to `None`. -/
def evAccFinish (acc : EvAcc) : Except Unit CloudEvent :=
  match acc.idF, acc.sourceF, acc.typeF, acc.subjectF with
  | some i, some s, some t, some sub =>
    .ok ⟨i, s, t, sub, acc.timeF.getD none, acc.dataF.getD none,
      acc.specversionF.getD ("1.0".toList), acc.datacontenttypeF.getD none⟩
  | _, _, _, _ => .error ()

/-- Next sequence element for a required `String` field. -/
def seqReqStr : List Json → Except Unit (List Char × List Json)
  | [] => .error ()
  | v :: rest => (asStr v).map (fun s => (s, rest))

/-- Next sequence element for an `Option<String>` field (may be absent). -/
def seqOptStr : List Json → Except Unit (Option (List Char) × List Json)
  | [] => .ok (none, [])
  | v :: rest => (asOptStr v).map (fun s => (s, rest))

/-- Next sequence element for the `Option<Value>` field (may be absent). -/
def seqOptVal : List Json → Except Unit (Option Json × List Json)
  | [] => .ok (none, [])
  | v :: rest => (asOptVal v).map (fun s => (s, rest))

/-- Next sequence element for a defaulted `String` field (may be absent). -/
def seqStrDefault (dflt : List Char) : List Json → Except Unit (List Char × List Json)
  | [] => .ok (dflt, [])
  | v :: rest => (asStr v).map (fun s => (s, rest))

/-- Struct deserialization from a JSON array, fields in declaration order. -/
def eventFromSeq (elems : List Json) : Except Unit CloudEvent := do
  let p1 ← seqReqStr elems
  let p2 ← seqReqStr p1.2
  let p3 ← seqReqStr p2.2
  let p4 ← seqReqStr p3.2
  let p5 ← seqOptStr p4.2
  let p6 ← seqOptVal p5.2
  let p7 ← seqStrDefault ("1.0".toList) p6.2
  let p8 ← seqOptStr p7.2
  match p8.2 with
  | [] => .ok ⟨p1.1, p2.1, p3.1, p4.1, p5.1, p6.1, p7.1, p8.1⟩
  | _ :: _ => .error ()

/-- `serde_json::from_str::<CloudEvent>`. -/
def parseCloudEvent (s : List Char) : Except Unit CloudEvent :=
  match parseJsonText s with
  | .error _ => .error ()
  | .ok (Json.obj entries) => (evAccFold evAccInit entries).bind evAccFinish
  | .ok (Json.arr elems) => eventFromSeq elems
  | .ok _ => .error ()

/-! ### Client error type (src/error.rs) -/

inductive Error where
  | missingConfig (field : List Char)
  | apiError (status : Nat) (status_text : List Char)
  | requestError
  | jsonError
  | invalidResponse (msg : List Char)
  | envError (msg : List Char)

/-! ### The `observe_events` stream decoder (src/client.rs, lines 463-511) -/

/-- Strip the SSE framing marker: `line.starts_with("data: ")` followed by
`&line[6..]`, otherwise the line unchanged. -/
def stripData (line : List Char) : List Char :=
  match line with
  | 'd' :: 'a' :: 't' :: 'a' :: ':' :: ' ' :: rest => rest
  | _ => line

/-- The comparison `parsed.get("payload") == Some(&Value::String(String::new()))`. -/
def isEmptyStrOpt : Option Json → Bool
  | some (Json.str []) => true
  | _ => false

/-- The heartbeat test: the line parses as JSON, its `payload` key holds the
empty string, and it is an object with exactly one key. -/
def isHeartbeat (jsonStr : List Char) : Bool :=
  match parseJsonText jsonStr with
  | .ok parsed =>
    isEmptyStrOpt (jsonGet parsed ("payload".toList)) && (jsonObjLen parsed == some 1)
  | .error _ => false

/-- One loop body of the decoder for a completed line: trim it, drop it if
empty, strip the SSE marker, drop heartbeats, otherwise yield the parsed
event or a `JsonError` item. -/
def processLine (rawLine : List Char) : Option (Except Error CloudEvent) :=
  let line := trimChars rawLine
  if line = [] then none
  else
    let jsonStr := stripData line
    if isHeartbeat jsonStr then none
    else
      match parseCloudEvent jsonStr with
      | .ok event => some (Except.ok event)
      | .error _ => some (Except.error Error.jsonError)

/-- The `while let Some(idx) = buffer.find('\n')` loop: split off the
content before each newline as a line, keep the unterminated remainder. -/
def drainBuffer : List Char → List (List Char) × List Char
  | [] => ([], [])
  | c :: rest =>
    if c = '\n' then
      let p := drainBuffer rest
      ([] :: p.1, p.2)
    else
      match drainBuffer rest with
      | ([], r) => ([], c :: r)
      | (l :: ls, r) => ((c :: l) :: ls, r)

/-- One result from the transport's byte stream: a chunk or an error. -/
inductive ChunkRes where
  | ok (bytes : List Nat) : ChunkRes
  | err : ChunkRes

/-- Handling of one `Ok` chunk, already decoded to text: append to the
buffer, extract every completed line, emit its item if any. -/
def processChunk (buffer text : List Char) : List (Except Error CloudEvent) × List Char :=
  let p := drainBuffer (buffer ++ text)
  (p.1.filterMap processLine, p.2)

/-- The whole decoding session: the sequence of items the stream yields,
given the chunk results the transport produces and the current buffer.
End of stream discards the buffer; a transport error yields one
`RequestError` item and breaks. -/
def observeDecode : List ChunkRes → List Char → List (Except Error CloudEvent)
  | [], _ => []
  | ChunkRes.ok bytes :: rest, buffer =>
    let p := processChunk buffer (utf8LossyDecode bytes)
    p.1 ++ observeDecode rest p.2
  | ChunkRes.err :: _, _ => [Except.error Error.requestError]

/-- Items contributed by the completed lines of a piece of text. -/
def lineItems (s : List Char) : List (Except Error CloudEvent) :=
  (drainBuffer s).1.filterMap processLine

/-! ### Batch response splitting (Rust `str::lines`) -/

/-- Split on every newline; a text with n newlines gives n+1 parts. -/
def splitNl : List Char → List (List Char)
  | [] => [[]]
  | c :: rest =>
    if c = '\n' then [] :: splitNl rest
    else
      match splitNl rest with
      | p :: ps => (c :: p) :: ps
      | [] => [[c]]

/-- Remove one trailing carriage return, for a part that a newline ended. -/
def dropTrailingCR (l : List Char) : List Char :=
  match l.reverse with
  | '\r' :: r => r.reverse
  | _ => l

/-- Rust `str::lines`: terminators are `\n` or `\r\n`; a final terminator
produces no extra empty line; a final unterminated line keeps its content
(including a bare trailing `\r`). -/
def linesRust (s : List Char) : List (List Char) :=
  let parts := splitNl s
  match parts.getLast? with
  | none => []
  | some last =>
    (parts.dropLast.map dropTrailingCR) ++ (if last = [] then [] else [last])

/-! ### HTTP layer -/

/-- A server response, as visible after `send()`: a status code plus the
text body (batch endpoints) - the live endpoint's byte stream is passed
separately as `List ChunkRes`. -/
structure HttpResponse where
  status : Nat
  body : List Char

/-- reqwest `StatusCode::is_success`: the 2xx range. -/
def isSuccessStatus (status : Nat) : Bool := 200 ≤ status && status < 300

/-- Modelled from the spec: the canonical reason phrase table used by
`status.canonical_reason()` lives in the `http` crate, outside this
repository; the spec calls it "its canonical reason phrase". -/
def canonicalReason : Nat → Option (List Char)
  | 100 => some ("Continue".toList)
  | 101 => some ("Switching Protocols".toList)
  | 102 => some ("Processing".toList)
  | 200 => some ("OK".toList)
  | 201 => some ("Created".toList)
  | 202 => some ("Accepted".toList)
  | 203 => some ("Non Authoritative Information".toList)
  | 204 => some ("No Content".toList)
  | 205 => some ("Reset Content".toList)
  | 206 => some ("Partial Content".toList)
  | 207 => some ("Multi-Status".toList)
  | 208 => some ("Already Reported".toList)
  | 226 => some ("IM Used".toList)
  | 300 => some ("Multiple Choices".toList)
  | 301 => some ("Moved Permanently".toList)
  | 302 => some ("Found".toList)
  | 303 => some ("See Other".toList)
  | 304 => some ("Not Modified".toList)
  | 305 => some ("Use Proxy".toList)
  | 307 => some ("Temporary Redirect".toList)
  | 308 => some ("Permanent Redirect".toList)
  | 400 => some ("Bad Request".toList)
  | 401 => some ("Unauthorized".toList)
  | 402 => some ("Payment Required".toList)
  | 403 => some ("Forbidden".toList)
  | 404 => some ("Not Found".toList)
  | 405 => some ("Method Not Allowed".toList)
  | 406 => some ("Not Acceptable".toList)
  | 407 => some ("Proxy Authentication Required".toList)
  | 408 => some ("Request Timeout".toList)
  | 409 => some ("Conflict".toList)
  | 410 => some ("Gone".toList)
  | 411 => some ("Length Required".toList)
  | 412 => some ("Precondition Failed".toList)
  | 413 => some ("Payload Too Large".toList)
  | 414 => some ("URI Too Long".toList)
  | 415 => some ("Unsupported Media Type".toList)
  | 416 => some ("Range Not Satisfiable".toList)
  | 417 => some ("Expectation Failed".toList)
  | 418 => some ("I'm a teapot".toList)
  | 421 => some ("Misdirected Request".toList)
  | 422 => some ("Unprocessable Entity".toList)
  | 423 => some ("Locked".toList)
  | 424 => some ("Failed Dependency".toList)
  | 426 => some ("Upgrade Required".toList)
  | 428 => some ("Precondition Required".toList)
  | 429 => some ("Too Many Requests".toList)
  | 431 => some ("Request Header Fields Too Large".toList)
  | 451 => some ("Unavailable For Legal Reasons".toList)
  | 500 => some ("Internal Server Error".toList)
  | 501 => some ("Not Implemented".toList)
  | 502 => some ("Bad Gateway".toList)
  | 503 => some ("Service Unavailable".toList)
  | 504 => some ("Gateway Timeout".toList)
  | 505 => some ("HTTP Version Not Supported".toList)
  | 506 => some ("Variant Also Negotiates".toList)
  | 507 => some ("Insufficient Storage".toList)
  | 508 => some ("Loop Detected".toList)
  | 510 => some ("Not Extended".toList)
  | 511 => some ("Network Authentication Required".toList)
  | _ => none

/-- `status.canonical_reason().unwrap_or("Unknown")`. -/
def reasonText (status : Nat) : List Char :=
  (canonicalReason status).getD ("Unknown".toList)

/-! ### Client configuration and construction (src/client.rs, lines 22-77) -/

structure ClientConfig where
  api_url : List Char
  api_version : List Char
  auth_token : List Char

/-- The client handle; the embedded `reqwest::Client` carries no
observable state of its own and is omitted. -/
structure Client where
  config : ClientConfig

/-- `Client::new`: reject a configuration whose fields are empty, in field
order, naming the field. -/
def Client.new (config : ClientConfig) : Except Error Client :=
  if config.api_url = [] then .error (Error.missingConfig ("api_url".toList))
  else if config.api_version = [] then .error (Error.missingConfig ("api_version".toList))
  else if config.auth_token = [] then .error (Error.missingConfig ("auth_token".toList))
  else .ok ⟨config⟩

/-- `ClientConfig::from_env`: the process environment is a partial map
from variable names to values; each of the three variables must be set. -/
def ClientConfig.from_env (env : List Char → Option (List Char)) : Except Error ClientConfig :=
  match env ("GENESISDB_API_URL".toList) with
  | none => .error (Error.envError ("GENESISDB_API_URL not set".toList))
  | some api_url =>
    match env ("GENESISDB_API_VERSION".toList) with
    | none => .error (Error.envError ("GENESISDB_API_VERSION not set".toList))
    | some api_version =>
      match env ("GENESISDB_AUTH_TOKEN".toList) with
      | none => .error (Error.envError ("GENESISDB_AUTH_TOKEN not set".toList))
      | some auth_token => .ok ⟨api_url, api_version, auth_token⟩

/-- `Client::from_env`. -/
def Client.from_env (env : List Char → Option (List Char)) : Except Error Client :=
  (ClientConfig.from_env env).bind Client.new

/-- The configuration field a `MissingConfig` error names, if any. -/
def configField (config : ClientConfig) (field : List Char) : Option (List Char) :=
  if field = "api_url".toList then some config.api_url
  else if field = "api_version".toList then some config.api_version
  else if field = "auth_token".toList then some config.auth_token
  else none

/-- Whether an error is a configuration error. -/
def Error.isConfig : Error → Bool
  | Error.missingConfig _ => true
  | _ => false

/-- Whether an error is an environment error. -/
def Error.isEnv : Error → Bool
  | Error.envError _ => true
  | _ => false

/-! ### Endpoint response handling (src/client.rs)

Request construction (URL, headers, serialized request body) never
influences the value an endpoint returns, so each endpoint is embedded as
a function of the server's response (plus the arguments a later call
forwards, for `q`). -/

/-- `ping`: non-2xx is an `ApiError`, otherwise the body text. -/
def Client.ping (response : HttpResponse) : Except Error (List Char) :=
  if isSuccessStatus response.status = false then
    .error (Error.apiError response.status (reasonText response.status))
  else .ok response.body

/-- `audit`: same response handling as `ping`. -/
def Client.audit (response : HttpResponse) : Except Error (List Char) :=
  if isSuccessStatus response.status = false then
    .error (Error.apiError response.status (reasonText response.status))
  else .ok response.body

/-- `.map(from_str).collect::<Result<Vec<_>, _>>()` over response lines. -/
def collectEvents : List (List Char) → Except Unit (List CloudEvent)
  | [] => .ok []
  | l :: ls => do
    let e ← parseCloudEvent l
    let es ← collectEvents ls
    pure (e :: es)

/-- The same collection for `q`, at `Value`. -/
def collectValues : List (List Char) → Except Unit (List Json)
  | [] => .ok []
  | l :: ls => do
    let v ← parseJsonText l
    let vs ← collectValues ls
    pure (v :: vs)

/-- `stream_events`: non-2xx is an `ApiError`; a blank body is an empty
vector; otherwise every non-blank line must parse as a `CloudEvent`, and
the first failure aborts the whole call with a `JsonError`. -/
def Client.stream_events (response : HttpResponse) : Except Error (List CloudEvent) :=
  if isSuccessStatus response.status = false then
    .error (Error.apiError response.status (reasonText response.status))
  else
    let text := response.body
    if trimChars text = [] then .ok []
    else
      match collectEvents ((linesRust text).filter (fun line => !(trimChars line).isEmpty)) with
      | .ok events => .ok events
      | .error _ => .error Error.jsonError

/-- `commit_events`: non-2xx is an `ApiError`, otherwise unit. -/
def Client.commit_events (response : HttpResponse) : Except Error Unit :=
  if isSuccessStatus response.status = false then
    .error (Error.apiError response.status (reasonText response.status))
  else .ok ()

/-- `erase_data`: non-2xx is an `ApiError`, otherwise unit. -/
def Client.erase_data (response : HttpResponse) : Except Error Unit :=
  if isSuccessStatus response.status = false then
    .error (Error.apiError response.status (reasonText response.status))
  else .ok ()

/-- `q`: like `stream_events` but each line parses as a plain `Value`. -/
def Client.q (query : List Char) (response : HttpResponse) : Except Error (List Json) :=
  if isSuccessStatus response.status = false then
    .error (Error.apiError response.status (reasonText response.status))
  else
    let text := response.body
    if trimChars text = [] then .ok []
    else
      match collectValues ((linesRust text).filter (fun line => !(trimChars line).isEmpty)) with
      | .ok results => .ok results
      | .error _ => .error Error.jsonError

/-- `query_events`, the documented alias: its body is `self.q(query).await`. -/
def Client.query_events (query : List Char) (response : HttpResponse) : Except Error (List Json) :=
  Client.q query response

/-- `observe_events`: non-2xx is an `ApiError`; otherwise the returned
stream yields exactly the decoding of the transport's chunk results,
starting from an empty buffer. -/
def Client.observe_events (status : Nat) (chunks : List ChunkRes) :
    Except Error (List (Except Error CloudEvent)) :=
  if isSuccessStatus status = false then
    .error (Error.apiError status (reasonText status))
  else .ok (observeDecode chunks [])

/-! ### Concrete inputs used by counterexamples and witnesses -/

/-- The id an output item carries (empty for error items): a projection
under which unequal images certify unequal item lists. -/
def obsId : Except Error CloudEvent → List Char
  | .ok e => e.id
  | .error _ => []

/-- One newline-terminated event line whose id field is the two-byte UTF-8
character U+00E9; as a byte sequence. -/
def cexLineBytes : List Nat :=
  "\x7b\"id\":\"".toList.map Char.toNat ++ [0xC3, 0xA9] ++
    "\",\"source\":\"s\",\"type\":\"t\",\"subject\":\"x\"\x7d".toList.map Char.toNat ++ [10]

/-! ### Helper lemmas: UTF-8 decoding -/

/-- Unfolding: an ASCII byte decodes to itself. -/
theorem lossy_cons_ascii (b0 : Nat) (rest : List Nat) (h : b0 < 0x80) :
    utf8LossyDecode (b0 :: rest) = Char.ofNat b0 :: utf8LossyDecode rest := by
  rw [utf8LossyDecode.eq_def]
  simp [h]

/-- Unfolding: a complete two-byte sequence decodes to its character. -/
theorem lossy_cons_two (b0 b1 : Nat) (rest : List Nat)
    (h0 : 0xC2 ≤ b0) (h1 : b0 ≤ 0xDF) (hc : utf8IsCont b1 = true) :
    utf8LossyDecode (b0 :: b1 :: rest) = utf8Char2 b0 b1 :: utf8LossyDecode rest := by
  have hn : ¬ b0 < 0x80 := by omega
  rw [utf8LossyDecode.eq_def]
  simp [hn, h0, h1, hc]

/-- Unfolding: a complete three-byte sequence decodes to its character. -/
theorem lossy_cons_three (b0 b1 b2 : Nat) (rest : List Nat)
    (h0 : 0xE0 ≤ b0) (h1 : b0 ≤ 0xEF) (hc1 : utf8Cont3First b0 b1 = true)
    (hc2 : utf8IsCont b2 = true) :
    utf8LossyDecode (b0 :: b1 :: b2 :: rest) = utf8Char3 b0 b1 b2 :: utf8LossyDecode rest := by
  have hn : ¬ b0 < 0x80 := by omega
  have hn2 : ¬ (0xC2 ≤ b0 ∧ b0 ≤ 0xDF) := by omega
  rw [utf8LossyDecode.eq_def]
  simp [hn, hn2, h0, h1, hc1, hc2]

/-- Unfolding: a complete four-byte sequence decodes to its character. -/
theorem lossy_cons_four (b0 b1 b2 b3 : Nat) (rest : List Nat)
    (h0 : 0xF0 ≤ b0) (h1 : b0 ≤ 0xF4) (hc1 : utf8Cont4First b0 b1 = true)
    (hc2 : utf8IsCont b2 = true) (hc3 : utf8IsCont b3 = true) :
    utf8LossyDecode (b0 :: b1 :: b2 :: b3 :: rest) =
      utf8Char4 b0 b1 b2 b3 :: utf8LossyDecode rest := by
  have hn : ¬ b0 < 0x80 := by omega
  have hn2 : ¬ (0xC2 ≤ b0 ∧ b0 ≤ 0xDF) := by omega
  have hn3 : ¬ (0xE0 ≤ b0 ∧ b0 ≤ 0xEF) := by omega
  rw [utf8LossyDecode.eq_def]
  simp [hn, hn2, hn3, h0, h1, hc1, hc2, hc3]

/-- ASCII text survives the byte round trip through lossy decoding. -/
theorem utf8LossyDecode_map_toNat (s : List Char) (h : ∀ c ∈ s, c.toNat < 128) :
    utf8LossyDecode (s.map Char.toNat) = s := by
  induction s with
  | nil => rfl
  | cons c cs ih =>
    have hc : c.toNat < 128 := h c (List.mem_cons_self c cs)
    have hcs : ∀ x ∈ cs, x.toNat < 128 := fun x hx => h x (List.mem_cons_of_mem c hx)
    rw [List.map_cons, lossy_cons_ascii _ _ hc, Char.ofNat_toNat, ih hcs]

/-- Bytes below 128 form a valid UTF-8 sequence. -/
theorem utf8Valid_ascii (l : List Nat) (h : ∀ b ∈ l, b < 128) : Utf8Valid l := by
  induction l with
  | nil => exact Utf8Valid.nil
  | cons b bs ih =>
    exact Utf8Valid.one b bs (h b (List.mem_cons_self b bs))
      (ih fun x hx => h x (List.mem_cons_of_mem b hx))

/-- Lossy decoding distributes over appending after a valid sequence: a
complete encoding decodes the same whatever follows it. -/
theorem utf8LossyDecode_append (a b : List Nat) (ha : Utf8Valid a) :
    utf8LossyDecode (a ++ b) = utf8LossyDecode a ++ utf8LossyDecode b := by
  induction ha with
  | nil => rfl
  | one b0 rest h _ ih =>
    rw [List.cons_append, lossy_cons_ascii _ _ h, lossy_cons_ascii _ _ h, ih,
      List.cons_append]
  | two b0 b1 rest h0 h1 hcont _ ih =>
    rw [List.cons_append, List.cons_append, lossy_cons_two _ _ _ h0 h1 hcont,
      lossy_cons_two _ _ _ h0 h1 hcont, ih, List.cons_append]
  | three b0 b1 b2 rest h0 h1 hc1 hc2 _ ih =>
    rw [List.cons_append, List.cons_append, List.cons_append,
      lossy_cons_three _ _ _ _ h0 h1 hc1 hc2, lossy_cons_three _ _ _ _ h0 h1 hc1 hc2,
      ih, List.cons_append]
  | four b0 b1 b2 b3 rest h0 h1 hc1 hc2 hc3 _ ih =>
    rw [List.cons_append, List.cons_append, List.cons_append, List.cons_append,
      lossy_cons_four _ _ _ _ _ h0 h1 hc1 hc2 hc3,
      lossy_cons_four _ _ _ _ _ h0 h1 hc1 hc2 hc3, ih, List.cons_append]

/-- Lossy decoding of a concatenation of valid chunks is the
concatenation of the chunkwise decodings. -/
theorem utf8LossyDecode_flatten (chunks : List (List Nat)) (h : ∀ c ∈ chunks, Utf8Valid c) :
    utf8LossyDecode chunks.flatten = (chunks.map utf8LossyDecode).flatten := by
  induction chunks with
  | nil => rfl
  | cons c cs ih =>
    simp only [List.flatten_cons, List.map_cons]
    rw [utf8LossyDecode_append _ _ (h c (List.mem_cons_self c cs)),
      ih fun x hx => h x (List.mem_cons_of_mem c hx)]

/-! ### Helper lemmas: the line-splitting loop -/

/-- A buffer without a newline yields no line and stays put. -/
theorem drainBuffer_no_nl (s : List Char) (h : '\n' ∉ s) : drainBuffer s = ([], s) := by
  induction s with
  | nil => rfl
  | cons c cs ih =>
    have hc : ¬ c = '\n' := fun hc => h (hc ▸ List.mem_cons_self c cs)
    have hcs : '\n' ∉ cs := fun hm => h (List.mem_cons_of_mem c hm)
    rw [drainBuffer.eq_def]
    simp [hc, ih hcs]

/-- The loop leaves no newline in the remainder. -/
theorem drainBuffer_snd_no_nl (s : List Char) : '\n' ∉ (drainBuffer s).2 := by
  induction s with
  | nil => simp [drainBuffer]
  | cons c cs ih =>
    by_cases hc : c = '\n'
    · rw [drainBuffer.eq_def]
      simpa [hc] using ih
    · rcases hds : drainBuffer cs with ⟨ls, r⟩
      rw [hds] at ih
      rw [drainBuffer.eq_def]
      cases ls with
      | nil =>
        simp only [if_neg hc, hds]
        show '\n' ∉ c :: r
        simp only [List.mem_cons, not_or]
        exact ⟨fun h2 => hc h2.symm, ih⟩
      | cons l ls2 =>
        simp only [if_neg hc, hds]
        exact ih

/-- The first completed line: content before the first newline, with the
loop continuing on what follows it. -/
theorem drainBuffer_line (l : List Char) (h : '\n' ∉ l) (r : List Char) :
    drainBuffer (l ++ '\n' :: r) = (l :: (drainBuffer r).1, (drainBuffer r).2) := by
  induction l with
  | nil => rw [List.nil_append, drainBuffer.eq_def]; simp
  | cons c cs ih =>
    have hc : ¬ c = '\n' := fun hc => h (hc ▸ List.mem_cons_self c cs)
    have hcs : '\n' ∉ cs := fun hm => h (List.mem_cons_of_mem c hm)
    rw [List.cons_append, drainBuffer.eq_def]
    simp [hc, ih hcs]

/-- Draining an appended buffer: first the lines of the left part, then
the loop restarted on its remainder joined with the right part.  This is
exactly how the decoder's buffer evolves from one chunk to the next. -/
theorem drainBuffer_append (s t : List Char) :
    drainBuffer (s ++ t) =
      ((drainBuffer s).1 ++ (drainBuffer ((drainBuffer s).2 ++ t)).1,
        (drainBuffer ((drainBuffer s).2 ++ t)).2) := by
  induction s with
  | nil => simp [drainBuffer]
  | cons c cs ih =>
    by_cases hc : c = '\n'
    · subst hc
      rw [List.cons_append, drainBuffer.eq_def]
      simp only [if_pos rfl]
      rw [ih]
      rw [drainBuffer.eq_def ('\n' :: cs)]
      simp
    · rcases hds : drainBuffer cs with ⟨ls, r⟩
      rw [hds] at ih
      cases ls with
      | nil =>
        rw [List.cons_append, drainBuffer.eq_def, drainBuffer.eq_def (c :: cs)]
        simp only [hc, if_false, hds, ih]
        rcases hX : drainBuffer (r ++ t) with ⟨xs, x2⟩
        cases xs with
        | nil =>
          simp only [List.nil_append, List.cons_append]
          rw [drainBuffer.eq_def (c :: (r ++ t))]
          simp [hc, hX]
        | cons x xs2 =>
          simp only [List.nil_append, List.cons_append]
          rw [drainBuffer.eq_def (c :: (r ++ t))]
          simp [hc, hX]
      | cons l ls2 =>
        rw [List.cons_append, drainBuffer.eq_def, drainBuffer.eq_def (c :: cs)]
        simp only [hc, if_false, hds, ih]
        simp

/-! ### Helper lemmas: the decoding session -/

/-- A run of error-free chunks decodes exactly the completed lines of the
concatenated text (the unterminated remainder contributes nothing). -/
theorem observeDecode_allOk (chunks : List (List Nat)) (buf : List Char) (h : '\n' ∉ buf) :
    observeDecode (chunks.map ChunkRes.ok) buf =
      lineItems (buf ++ (chunks.map utf8LossyDecode).flatten) := by
  induction chunks generalizing buf with
  | nil =>
    simp only [List.map_nil, observeDecode, List.flatten_nil, List.append_nil, lineItems]
    rw [drainBuffer_no_nl _ h]
    rfl
  | cons c cs ih =>
    simp only [List.map_cons, observeDecode, processChunk, List.flatten_cons]
    rw [ih _ (drainBuffer_snd_no_nl _)]
    simp only [lineItems]
    rw [← List.append_assoc]
    rw [drainBuffer_append (buf ++ utf8LossyDecode c) ((cs.map utf8LossyDecode).flatten)]
    simp [List.filterMap_append]

/-- The empty input is not valid JSON text. -/
theorem parseJsonText_nil : parseJsonText ([] : List Char) = Except.error () := rfl

/-- A line that parses to the one-entry empty-payload object passes the
heartbeat test. -/
theorem isHeartbeat_of_parse (s : List Char)
    (h : parseJsonText s = Except.ok (Json.obj [("payload".toList, Json.str [])])) :
    isHeartbeat s = true := by
  simp only [isHeartbeat, h]
  decide

/-- The decoder drops a line that the heartbeat shape hypothesis covers. -/
theorem processLine_heartbeat (line : List Char)
    (hhb : parseJsonText (stripData (trimChars line)) =
      Except.ok (Json.obj [("payload".toList, Json.str [])])) :
    processLine line = none := by
  have hne : ¬ trimChars line = [] := by
    intro h0
    rw [h0] at hhb
    exact Except.noConfusion hhb
  simp [processLine, hne, isHeartbeat_of_parse _ hhb]

/-- The decoder yields one `JsonError` item for a completed line that is
not blank, not a heartbeat, and fails event deserialization. -/
theorem processLine_error (bad : List Char) (hne : trimChars bad ≠ [])
    (hhb : isHeartbeat (stripData (trimChars bad)) = false)
    (hperr : parseCloudEvent (stripData (trimChars bad)) = Except.error ()) :
    processLine bad = some (Except.error Error.jsonError) := by
  simp [processLine, hne, hhb, hperr]

/-- The decoder yields the parsed event for a completed line that is not
blank, not a heartbeat, and deserializes. -/
theorem processLine_ok (line : List Char) (event : CloudEvent) (hne : trimChars line ≠ [])
    (hhb : isHeartbeat (stripData (trimChars line)) = false)
    (hp : parseCloudEvent (stripData (trimChars line)) = Except.ok event) :
    processLine line = some (Except.ok event) := by
  simp [processLine, hne, hhb, hp]

/-! ### Claim C8 -/

/-- C8: after any decode step, the retained buffer holds no newline -
every completed line was split off before control returns to await the
next chunk. -/
theorem c8_buffer_no_newline (buffer text : List Char) :
    '\n' ∉ (processChunk buffer text).2 := by
  simp only [processChunk]
  exact drainBuffer_snd_no_nl _

/-! ### Claim C4 -/

/-- C4: a transport error after any run of good chunks yields exactly one
`RequestError` item and exhausts the sequence - whatever results the
transport would produce afterwards are never consumed. -/
theorem c4_transport_error_terminal (pre : List (List Nat)) (rest : List ChunkRes)
    (buf : List Char) :
    observeDecode (pre.map ChunkRes.ok ++ ChunkRes.err :: rest) buf =
      observeDecode (pre.map ChunkRes.ok) buf ++ [Except.error Error.requestError] := by
  induction pre generalizing buf with
  | nil => simp [observeDecode]
  | cons c cs ih =>
    simp only [List.map_cons, List.cons_append, observeDecode, List.append_eq]
    rw [ih]
    simp

/-! ### Claim C3 -/

/-- C3: a final chunk whose decoded text holds no newline is discarded at
end of stream and contributes no item, whatever came before it. -/
theorem c3_trailing_residual_discarded (cs : List ChunkRes) (buf : List Char)
    (tl : List Nat) (hbuf : '\n' ∉ buf) (htl : '\n' ∉ utf8LossyDecode tl) :
    observeDecode (cs ++ [ChunkRes.ok tl]) buf = observeDecode cs buf := by
  induction cs generalizing buf with
  | nil =>
    simp only [List.nil_append, observeDecode, processChunk]
    have hno : '\n' ∉ buf ++ utf8LossyDecode tl := by
      intro hm
      rcases List.mem_append.mp hm with h | h
      · exact hbuf h
      · exact htl h
    rw [drainBuffer_no_nl _ hno]
    simp [observeDecode]
  | cons c cs ih =>
    cases c with
    | ok bytes =>
      simp only [List.cons_append, observeDecode, processChunk, List.append_eq]
      rw [ih _ (drainBuffer_snd_no_nl _)]
    | err => simp [observeDecode]

/-- C3 witness: a lone unterminated event line produces nothing. -/
theorem c3_trailing_residual_discarded_witness :
    observeDecode [ChunkRes.ok ("\x7b\"id\":\"1\",\"source\":\"s\"".toList.map Char.toNat)] [] =
      observeDecode [] [] :=
  c3_trailing_residual_discarded [] []
    ("\x7b\"id\":\"1\",\"source\":\"s\"".toList.map Char.toNat)
    (by decide) (by decide)

/-! ### Claim C10 -/

/-- C10: `query_events` is an exact alias of `q` - same query, same
response, same result. -/
theorem c10_query_events_alias (query : List Char) (response : HttpResponse) :
    Client.query_events query response = Client.q query response := rfl

/-! ### Claim C1 -/

/-- C1 counterexample: the claim fails as stated.  Delivering the bytes of
one event line one per chunk differs from delivering them all at once,
because each chunk is decoded with `from_utf8_lossy` separately: the
two-byte character in the id field becomes two U+FFFD replacements when a
chunk boundary splits it. -/
theorem c1_chunking_counterexample :
    observeDecode (cexLineBytes.map fun b => ChunkRes.ok [b]) [] ≠
      observeDecode [ChunkRes.ok cexLineBytes] [] :=
  fun h => absurd (congrArg (List.map obsId) h) (by decide)

/-- C1 amended: chunking invariance does hold whenever every chunk is
itself valid UTF-8 (no chunk boundary cuts a multi-byte character). -/
theorem c1_chunking_invariance_validUtf8 (chunks : List (List Nat))
    (h : ∀ c ∈ chunks, Utf8Valid c) :
    observeDecode (chunks.map ChunkRes.ok) [] =
      observeDecode [ChunkRes.ok chunks.flatten] [] := by
  rw [show (observeDecode [ChunkRes.ok chunks.flatten] [] : List (Except Error CloudEvent)) =
    observeDecode ([chunks.flatten].map ChunkRes.ok) [] from rfl]
  rw [observeDecode_allOk chunks [] (by simp), observeDecode_allOk [chunks.flatten] [] (by simp)]
  simp only [List.map_cons, List.map_nil, List.flatten_cons, List.flatten_nil,
    List.append_nil, List.nil_append]
  rw [utf8LossyDecode_flatten chunks h]

/-- C1 witness: an event line split mid-field into two ASCII chunks
decodes as the unsplit line does. -/
theorem c1_chunking_invariance_validUtf8_witness :
    observeDecode ([("\x7b\"id\":\"1\",\"sou".toList.map Char.toNat),
        ("rce\":\"s\",\"type\":\"t\",\"subject\":\"/x\"\x7d\n".toList.map Char.toNat)].map
      ChunkRes.ok) [] =
      observeDecode [ChunkRes.ok (([("\x7b\"id\":\"1\",\"sou".toList.map Char.toNat),
        ("rce\":\"s\",\"type\":\"t\",\"subject\":\"/x\"\x7d\n".toList.map Char.toNat)] :
          List (List Nat)).flatten)] [] :=
  c1_chunking_invariance_validUtf8 _ (by
    intro c hc
    rcases List.mem_cons.mp hc with rfl | hc2
    · exact utf8Valid_ascii _ (by decide)
    · rcases List.mem_cons.mp hc2 with rfl | hc3
      · exact utf8Valid_ascii _ (by decide)
      · exact absurd hc3 (List.not_mem_nil c))

/-! ### Claim C2 -/

/-- C2: a newline-terminated line that (after trimming and optional
`"data: "` removal) parses as the one-entry object with an empty payload
string is dropped: no item is produced for it, and decoding continues
with the rest of the stream unchanged. -/
theorem c2_heartbeat_line_dropped (line : List Char) (cs : List ChunkRes)
    (hascii : ∀ c ∈ line, c.toNat < 128) (hnl : '\n' ∉ line)
    (hhb : parseJsonText (stripData (trimChars line)) =
      Except.ok (Json.obj [("payload".toList, Json.str [])])) :
    processLine line = none ∧
    observeDecode (ChunkRes.ok ((line ++ ['\n']).map Char.toNat) :: cs) [] =
      observeDecode cs [] := by
  refine ⟨processLine_heartbeat line hhb, ?_⟩
  have hdec : utf8LossyDecode ((line ++ ['\n']).map Char.toNat) = line ++ ['\n'] := by
    apply utf8LossyDecode_map_toNat
    intro c hcm
    rcases List.mem_append.mp hcm with h1 | h2
    · exact hascii c h1
    · rw [List.mem_singleton.mp h2]
      decide
  simp only [observeDecode, processChunk, hdec, List.nil_append]
  rw [show line ++ ['\n'] = line ++ '\n' :: [] from rfl, drainBuffer_line line hnl []]
  simp [processLine_heartbeat line hhb, drainBuffer]

/-- C2 witness: the plain heartbeat line, followed by an arbitrary
remaining stream (here one transport error), is dropped. -/
theorem c2_heartbeat_line_dropped_witness :
    processLine ("\x7b\"payload\":\"\"\x7d".toList) = none ∧
    observeDecode (ChunkRes.ok (("\x7b\"payload\":\"\"\x7d".toList ++ ['\n']).map Char.toNat) ::
        [ChunkRes.err]) [] =
      observeDecode [ChunkRes.err] [] :=
  c2_heartbeat_line_dropped ("\x7b\"payload\":\"\"\x7d".toList) [ChunkRes.err]
    (by decide) (by decide) (by rfl)

/-! ### Claim C5 -/

/-- C5: a newline-terminated line that is not blank, not a heartbeat, and
fails to deserialize as a `CloudEvent` contributes exactly one
`JsonError` item, after which decoding continues with the rest of the
stream unchanged - in particular every subsequent valid line still
decodes. -/
theorem c5_decode_error_isolated (bad : List Char) (cs : List ChunkRes)
    (hascii : ∀ c ∈ bad, c.toNat < 128) (hnl : '\n' ∉ bad)
    (hne : trimChars bad ≠ [])
    (hhb : isHeartbeat (stripData (trimChars bad)) = false)
    (hperr : parseCloudEvent (stripData (trimChars bad)) = Except.error ()) :
    processLine bad = some (Except.error Error.jsonError) ∧
    observeDecode (ChunkRes.ok ((bad ++ ['\n']).map Char.toNat) :: cs) [] =
      Except.error Error.jsonError :: observeDecode cs [] := by
  refine ⟨processLine_error bad hne hhb hperr, ?_⟩
  have hdec : utf8LossyDecode ((bad ++ ['\n']).map Char.toNat) = bad ++ ['\n'] := by
    apply utf8LossyDecode_map_toNat
    intro c hcm
    rcases List.mem_append.mp hcm with h1 | h2
    · exact hascii c h1
    · rw [List.mem_singleton.mp h2]
      decide
  simp only [observeDecode, processChunk, hdec, List.nil_append]
  rw [show bad ++ ['\n'] = bad ++ '\n' :: [] from rfl, drainBuffer_line bad hnl []]
  simp [processLine_error bad hne hhb hperr, drainBuffer]

/-- C5 witness: a malformed line then a valid event line - one error item,
then the valid event still decoded. -/
theorem c5_decode_error_isolated_witness :
    processLine ("not json".toList) = some (Except.error Error.jsonError) ∧
    observeDecode (ChunkRes.ok (("not json".toList ++ ['\n']).map Char.toNat) ::
        [ChunkRes.ok (("\x7b\"id\":\"2\",\"source\":\"s\",\"type\":\"t\",\"subject\":\"x\"\x7d\n".toList).map Char.toNat)]) [] =
      Except.error Error.jsonError ::
        observeDecode [ChunkRes.ok (("\x7b\"id\":\"2\",\"source\":\"s\",\"type\":\"t\",\"subject\":\"x\"\x7d\n".toList).map Char.toNat)] [] :=
  c5_decode_error_isolated ("not json".toList) _
    (by decide) (by decide) (by decide) (by rfl) (by rfl)

/-! ### Claim C6 -/

/-- C6: every endpoint maps a non-2xx response to an `ApiError` carrying
the exact numeric status and its canonical reason phrase, and returns no
success value. -/
theorem c6_non2xx_api_error (status : Nat) (body : List Char) (chunks : List ChunkRes)
    (query : List Char) (h : isSuccessStatus status = false) :
    Client.ping ⟨status, body⟩ = Except.error (Error.apiError status (reasonText status)) ∧
    Client.audit ⟨status, body⟩ = Except.error (Error.apiError status (reasonText status)) ∧
    Client.stream_events ⟨status, body⟩ =
      Except.error (Error.apiError status (reasonText status)) ∧
    Client.commit_events ⟨status, body⟩ =
      Except.error (Error.apiError status (reasonText status)) ∧
    Client.erase_data ⟨status, body⟩ =
      Except.error (Error.apiError status (reasonText status)) ∧
    Client.q query ⟨status, body⟩ = Except.error (Error.apiError status (reasonText status)) ∧
    Client.observe_events status chunks =
      Except.error (Error.apiError status (reasonText status)) := by
  refine ⟨?_, ?_, ?_, ?_, ?_, ?_, ?_⟩ <;>
    simp [Client.ping, Client.audit, Client.stream_events, Client.commit_events,
      Client.erase_data, Client.q, Client.observe_events, h]

/-- C6 witness: a 503 ping reports the status and its reason phrase. -/
theorem c6_non2xx_api_error_witness :
    Client.ping ⟨503, "pong".toList⟩ =
      Except.error (Error.apiError 503 ("Service Unavailable".toList)) :=
  (c6_non2xx_api_error 503 ("pong".toList) [] [] (by decide)).1

/-! ### Claim C7 -/

/-- C7: a 2xx batch response whose body is empty or all whitespace yields
the empty result sequence, for both batch endpoints. -/
theorem c7_empty_batch_body_ok (status : Nat) (body query : List Char)
    (hs : isSuccessStatus status = true) (hb : trimChars body = []) :
    Client.stream_events ⟨status, body⟩ = Except.ok [] ∧
    Client.q query ⟨status, body⟩ = Except.ok [] := by
  constructor <;> simp [Client.stream_events, Client.q, hs, hb]

/-- C7 witness: a whitespace-only 200 body gives empty results. -/
theorem c7_empty_batch_body_ok_witness :
    Client.stream_events ⟨200, "  \n ".toList⟩ = Except.ok [] ∧
    Client.q [] ⟨200, "  \n ".toList⟩ = Except.ok [] :=
  c7_empty_batch_body_ok 200 ("  \n ".toList) [] (by decide) (by decide)

/-! ### Claim C9 -/

/-- C9: `Client::new` fails with a configuration error naming an (empty)
offending field exactly when one of the three settings is empty, and
otherwise succeeds; `ClientConfig::from_env` fails with an environment
error when a required variable is absent; neither construction path can
produce a transport error (every `new` failure is `MissingConfig`, every
`from_env` failure is `EnvError`). -/
theorem c9_config_validation (cfg : ClientConfig) (env : List Char → Option (List Char)) :
    ((∃ f, Client.new cfg = Except.error (Error.missingConfig f)) ↔
      (cfg.api_url = [] ∨ cfg.api_version = [] ∨ cfg.auth_token = [])) ∧
    (∀ f, Client.new cfg = Except.error (Error.missingConfig f) →
      configField cfg f = some []) ∧
    ((env ("GENESISDB_API_URL".toList) = none ∨
        env ("GENESISDB_API_VERSION".toList) = none ∨
        env ("GENESISDB_AUTH_TOKEN".toList) = none) →
      ∃ m, ClientConfig.from_env env = Except.error (Error.envError m)) ∧
    (∀ e, Client.new cfg = Except.error e → e.isConfig = true) ∧
    (∀ e, ClientConfig.from_env env = Except.error e → e.isEnv = true) ∧
    (cfg.api_url ≠ [] → cfg.api_version ≠ [] → cfg.auth_token ≠ [] →
      Client.new cfg = Except.ok ⟨cfg⟩) := by
  refine ⟨⟨?_, ?_⟩, ?_, ?_, ?_, ?_, ?_⟩
  · rintro ⟨f, hf⟩
    by_cases h1 : cfg.api_url = []
    · exact Or.inl h1
    by_cases h2 : cfg.api_version = []
    · exact Or.inr (Or.inl h2)
    by_cases h3 : cfg.auth_token = []
    · exact Or.inr (Or.inr h3)
    simp [Client.new, h1, h2, h3] at hf
  · intro hor
    simp only [Client.new]
    split_ifs with h1 h2 h3
    · exact ⟨_, rfl⟩
    · exact ⟨_, rfl⟩
    · exact ⟨_, rfl⟩
    · rcases hor with h | h | h
      · exact absurd h h1
      · exact absurd h h2
      · exact absurd h h3
  · intro f hf
    simp only [Client.new] at hf
    split_ifs at hf with h1 h2 h3
    · injection hf with hf2
      injection hf2 with hf3
      rw [← hf3]
      simp [configField, h1]
    · injection hf with hf2
      injection hf2 with hf3
      rw [← hf3]
      simp [configField, h2]
    · injection hf with hf2
      injection hf2 with hf3
      rw [← hf3]
      simp [configField, h3]
  · intro hor
    by_cases hu : env ("GENESISDB_API_URL".toList) = none
    · exact ⟨_, by unfold ClientConfig.from_env; rw [hu]⟩
    · obtain ⟨u, hu2⟩ := Option.ne_none_iff_exists'.mp hu
      by_cases hv : env ("GENESISDB_API_VERSION".toList) = none
      · exact ⟨_, by unfold ClientConfig.from_env; rw [hu2, hv]⟩
      · obtain ⟨v, hv2⟩ := Option.ne_none_iff_exists'.mp hv
        have hw : env ("GENESISDB_AUTH_TOKEN".toList) = none := by
          rcases hor with h | h | h
          · exact absurd h hu
          · exact absurd h hv
          · exact h
        exact ⟨_, by unfold ClientConfig.from_env; rw [hu2, hv2, hw]⟩
  · intro e he
    simp only [Client.new] at he
    split_ifs at he with h1 h2 h3
    · injection he with he2
      rw [← he2]
      rfl
    · injection he with he2
      rw [← he2]
      rfl
    · injection he with he2
      rw [← he2]
      rfl
  · intro e he
    unfold ClientConfig.from_env at he
    cases hu : env ("GENESISDB_API_URL".toList) with
    | none =>
      rw [hu] at he
      injection he with he2
      rw [← he2]
      rfl
    | some u =>
      rw [hu] at he
      cases hv : env ("GENESISDB_API_VERSION".toList) with
      | none =>
        rw [hv] at he
        injection he with he2
        rw [← he2]
        rfl
      | some v =>
        rw [hv] at he
        cases hw : env ("GENESISDB_AUTH_TOKEN".toList) with
        | none =>
          rw [hw] at he
          injection he with he2
          rw [← he2]
          rfl
        | some w =>
          rw [hw] at he
          exact Except.noConfusion he
  · intro h1 h2 h3
    simp [Client.new, h1, h2, h3]

/-- C9 witness: a fully populated configuration constructs a client, and
an environment missing every variable is an environment error. -/
theorem c9_config_validation_witness :
    Client.new ⟨"u".toList, "v".toList, "t".toList⟩ =
      Except.ok ⟨⟨"u".toList, "v".toList, "t".toList⟩⟩ ∧
    ∃ m, ClientConfig.from_env (fun _ => none) = Except.error (Error.envError m) :=
  ⟨(c9_config_validation ⟨"u".toList, "v".toList, "t".toList⟩ (fun _ => none)).2.2.2.2.2
      (by decide) (by decide) (by decide),
    (c9_config_validation ⟨"u".toList, "v".toList, "t".toList⟩ (fun _ => none)).2.2.1
      (Or.inl rfl)⟩
